import Mathlib

/-!
# Verification of the supavec/supabase-ai embeddings pipeline

Shallow embedding of `src/embeddings/EmbeddingsClient.ts`,
`src/embeddings/utils.ts` and the `SupabaseAI` configuration resolution in
`src/client.ts`, together with theorems settling the frozen claims about the
store/search orchestration, vector math, normalization, configuration
defaulting and termination.

Modelling conventions:
* JavaScript numbers are modelled as `ℚ` (the claims under scrutiny never
  depend on floating-point rounding).
* A JS object row is an association list `List (String × JsonVal)`; a field
  that is absent models JS `undefined`.
* TypeScript optional fields become `Option`; JS `??` is `Option.getD`, while
  the JS truthiness tests that the source applies to strings (`if (!table)`,
  `if (normalizedItem.id)`, `options?.orderBy &&`) additionally treat the
  empty string as absent.
* Asynchronous effects (provider calls, inserts, the similarity RPC) are
  modelled by explicit oracles and by returning the trace of calls that the
  sequential code issues.
* The local sort of `search` calls `Array.prototype.sort` with a comparator
  that never returns 0; such a comparator is not a consistent comparison
  function in the ECMAScript sense, so the language specification leaves the
  resulting order implementation-defined (and actual runtimes do reorder
  equal-keyed elements).  The runtime's sort is therefore an explicit oracle
  parameter `jsSort` of the `search` model, and properties of the sorted
  output are stated conditionally on properties of the oracle's output.
-/

/-- A JSON-compatible value as stored in rows returned by the backing store. -/
inductive JsonVal where
  | null : JsonVal
  | bool (b : Bool) : JsonVal
  | num (q : ℚ) : JsonVal
  | str (s : String) : JsonVal
  deriving DecidableEq, Repr

/-- A JS object: an insertion-ordered association list of fields.
A key that does not occur models JS `undefined`. -/
abbrev Row : Type := List (String × JsonVal)

/-- Field access `row[f]`, `none` standing for JS `undefined`. -/
def rowGet (r : Row) (f : String) : Option JsonVal :=
  r.lookup f

/-- A metadata object (`Record<string, any>` in the source). -/
abbrev Metadata : Type := Row

/-- Type `StoreData` from `src/types`: canonical input shape of `store`.
`extra` holds the open `[key: string]: any` passthrough fields, whose keys are
by construction distinct from `content`, `metadata`, `id`. -/
structure StoreData where
  content : String
  metadata : Option Metadata := none
  id : Option String := none
  extra : Row := []
  deriving DecidableEq, Repr

/-- Type `LangChainDocument` from `src/types`: the foreign input shape, recognized
by the presence of a `pageContent` key. -/
structure LangChainDocument where
  pageContent : String
  metadata : Option Metadata := none
  id : Option String := none
  deriving DecidableEq, Repr

/-- Type `StoreInput = StoreData | LangChainDocument`. -/
inductive StoreInput where
  | storeData (d : StoreData) : StoreInput
  | langChain (d : LangChainDocument) : StoreInput
  deriving DecidableEq, Repr

/-- JS truthiness of an optional string (`undefined`, `null` and `""` are
falsy; every other string is truthy). -/
def strTruthy : Option String → Bool
  | none => false
  | some s => !s.isEmpty

/-- Method `EmbeddingsClient.normalizeStoreInput`: a value with a `pageContent` key is
converted to `StoreData` shape, spreading `metadata`/`id` only when truthy
(`...(item.metadata && {...})`, `...(item.id && {...})`); a metadata object is
always truthy when present, while an `""` id is falsy and hence dropped.
Anything else is returned as-is. -/
def normalizeStoreInput : StoreInput → StoreData
  | .storeData d => d
  | .langChain d =>
    { content := d.pageContent
      metadata := d.metadata
      id := if strTruthy d.id then d.id else none
      extra := [] }

/-- A record assembled by `store` and handed to `supabase.from(table).insert`. -/
structure PersistedRecord where
  content : String
  embedding : List ℚ
  metadata : Metadata
  extra : Row
  id : Option String
  deriving DecidableEq, Repr

/-- Assembly of one persisted record inside the `for (const item of data)` loop
of `EmbeddingsClient.store`.  `embed` is the embedding provider
(`this.create(normalizedItem.content)` returning the single vector
`embeddings[0]`), `genId` is the id supply for `generateId()` and `ctr` counts
the `generateId()` calls made so far.  The id field mirrors
`if (normalizedItem.id) ... else if (generateIds) ...`: a truthy id is copied,
otherwise with `generateIds` a fresh id is drawn, otherwise the `id` key is
omitted (`none`). -/
def assembleRecord (embed : String → List ℚ) (genId : Nat → String)
    (generateIds : Bool) (item : StoreInput) (ctr : Nat) :
    PersistedRecord × Nat :=
  let n := normalizeStoreInput item
  let base : PersistedRecord :=
    { content := n.content
      embedding := embed n.content
      metadata := n.metadata.getD []
      extra := n.extra
      id := none }
  if strTruthy n.id then ({ base with id := n.id }, ctr)
  else if generateIds then ({ base with id := some (genId ctr) }, ctr + 1)
  else (base, ctr)

/-- The sequential embed-and-assemble loop of `EmbeddingsClient.store`,
threading the `generateId()` call counter left to right. -/
def processData (embed : String → List ℚ) (genId : Nat → String)
    (generateIds : Bool) : List StoreInput → Nat → List PersistedRecord × Nat
  | [], ctr => ([], ctr)
  | item :: rest, ctr =>
    let p := assembleRecord embed genId generateIds item ctr
    let q := processData embed genId generateIds rest p.2
    (p.1 :: q.1, q.2)

/-- Consecutive chunks of at most `b` elements (the batches
`processedData.slice(i, i + batchSize)` visited by the insert loop when
`batchSize ≥ 1`), defined with the list length as fuel so that the definition
is total; for `b ≥ 1` the fuel is never exhausted. -/
def chunksAux (b : Nat) : Nat → List α → List (List α)
  | 0, _ => []
  | _, [] => []
  | fuel + 1, l@(_ :: _) => l.take b :: chunksAux b fuel (l.drop b)

/-- Chunking a list into consecutive batches of at most `b` elements. -/
def chunks (b : Nat) (l : List α) : List (List α) :=
  chunksAux b l.length l

/-- Sequential insertion of the given batches: `insRes k` is the `error` field
reported by the backing store for the `k`-th insert call (`none` = success).
Returns the batches actually sent together with the first reported error.  On
the first error no further batch is sent. -/
def insertChunks (insRes : Nat → Option String) :
    List (List PersistedRecord) → Nat → List (List PersistedRecord) × Option String
  | [], _ => ([], none)
  | c :: cs, k =>
    match insRes k with
    | some msg => ([c], some msg)
    | none =>
      let q := insertChunks insRes cs (k + 1)
      (c :: q.1, q.2)

/-- The literal insert loop
`for (let i = 0; i < processedData.length; i += batchSize)` of
`EmbeddingsClient.store`, with an explicit fuel bound on the number of loop
iterations; `none` means the fuel ran out before the loop finished (for
`batchSize = 0` and a non-empty record list no finite fuel suffices, i.e. the
loop does not terminate).  `i` is the loop index and `k` the number of insert
calls issued so far. -/
def insertLoopFuel (insRes : Nat → Option String) (recs : List PersistedRecord)
    (b : Nat) : Nat → Nat → Nat →
    Option (List (List PersistedRecord) × Option String)
  | 0, _, _ => none
  | fuel + 1, i, k =>
    if i < recs.length then
      let batch := (recs.drop i).take b
      match insRes k with
      | some msg => some ([batch], some msg)
      | none =>
        match insertLoopFuel insRes recs b fuel (i + b) (k + 1) with
        | none => none
        | some p => some (batch :: p.1, p.2)
    else
      some ([], none)

/-- Type `StoreOptions` from `src/types`. -/
structure StoreOptions where
  table : Option String := none
  generateId : Option Bool := none
  batchSize : Option Nat := none
  deriving DecidableEq, Repr

/-- Errors thrown by `store`. -/
inductive StoreErr where
  | validation (msg : String) : StoreErr
  | database (msg : String) : StoreErr
  deriving DecidableEq, Repr

deriving instance DecidableEq for Except

/-- The `ValidationError` message shared by `store` and `search`. -/
def tableRequiredMsg : String :=
  "Table name is required. Provide either options.table or set defaultTable in constructor."

/-- Observable outcome of one `store` call: the provider-call trace (one
`create` call per document, with the content that was embedded), the insert
calls issued (each with its rows, in order), and the result. -/
structure StoreOutcome where
  embedCalls : List String
  inserts : List (List PersistedRecord)
  result : Except StoreErr Unit
  deriving DecidableEq, Repr

/-- Method `EmbeddingsClient.store`, step for step:
table resolution `options?.table ?? this.defaultTable` and the falsy check
`if (!table)` come first; then `batchSize = options?.batchSize ?? 100` and
`generateIds = options?.generateId === true`; then the sequential
embed-and-assemble loop; then the chunked insert loop, which wraps the first
reported error as `DatabaseError("Failed to store embeddings: " + message)`.
`fuel` bounds the iterations of the insert loop (`none` = the loop did not
finish within `fuel` iterations). -/
def store (embed : String → List ℚ) (genId : Nat → String)
    (insRes : Nat → Option String) (defaultTable : String)
    (data : List StoreInput) (opts : StoreOptions) (fuel : Nat) :
    Option StoreOutcome :=
  let table := opts.table.getD defaultTable
  if table.isEmpty then
    some { embedCalls := [], inserts := [],
           result := .error (.validation tableRequiredMsg) }
  else
    let batchSize := opts.batchSize.getD 100
    let generateIds := opts.generateId == some true
    let records := (processData embed genId generateIds data 0).1
    let embedTrace := data.map (fun item => (normalizeStoreInput item).content)
    match insertLoopFuel insRes records batchSize fuel 0 0 with
    | none => none
    | some p =>
      match p.2 with
      | none =>
        some { embedCalls := embedTrace, inserts := p.1, result := .ok () }
      | some msg =>
        some { embedCalls := embedTrace, inserts := p.1,
               result := .error (.database ("Failed to store embeddings: " ++ msg)) }

/-- Type `SearchOptions` from `src/types`. -/
structure SearchOptions where
  table : Option String := none
  limit : Option Nat := none
  threshold : Option ℚ := none
  filters : Option Metadata := none
  metadata : Option Metadata := none
  select : Option String := none
  orderBy : Option String := none
  includeDistance : Bool := false
  rpc : Option String := none
  deriving DecidableEq, Repr

/-- The parameter object passed to `supabase.rpc(rpcFunction, rpcParams)`;
`filters` / `metadata_filter` are attached only when the corresponding
(always-truthy) option object is present. -/
structure RpcParams where
  query_embedding : List ℚ
  match_threshold : ℚ
  match_count : Nat
  table_name : String
  filters : Option Metadata := none
  metadata_filter : Option Metadata := none
  deriving DecidableEq, Repr

/-- A JS exception, as far as the `catch` block of `search` can distinguish
exceptions: either an error that `instanceof DatabaseError` recognizes
(carrying its message) or any other error (carrying its `.message`). -/
inductive Exn where
  | dbError (msg : String) : Exn
  | other (msg : String) : Exn
  deriving DecidableEq, Repr

/-- Behaviour of the `await this.supabase.rpc(...)` call: it either returns a
`{ data, error }` pair (`data` possibly `null`, `error` absent on success) or
throws an exception. -/
inductive RpcOutcome where
  | ret (data : Option (List Row)) (err : Option String) : RpcOutcome
  | exnThrow (e : Exn) : RpcOutcome
  deriving DecidableEq, Repr

/-- Errors thrown by `search`. -/
inductive SearchErr where
  | validation (msg : String) : SearchErr
  | database (msg : String) : SearchErr
  deriving DecidableEq, Repr

/-- The field list `options.select.split(",").map((f) => f.trim())`. -/
def selectFields (sel : String) : List String :=
  (sel.splitOn ",").map (fun f => f.trim)

/-- Projection of one row to the selected fields:
`if (item[field] !== undefined) filtered[field] = item[field]`, in select-list
order, silently skipping fields absent from the row. -/
def projectRow (fields : List String) (r : Row) : Row :=
  fields.filterMap (fun f => (rowGet r f).map (fun v => (f, v)))

/-- JS `ToNumber` on the JSON values a similarity row can carry, `none`
standing for `NaN`.  Numeric strings are not modelled: the sort claims are
only about rows whose order-by field is uniformly numeric or uniformly a
string. -/
def toNumQ : JsonVal → Option ℚ
  | .num q => some q
  | .bool b => some (if b then 1 else 0)
  | .null => some 0
  | .str _ => none

/-- The JS `>` comparison as used by the sort comparator `aVal > bVal`, on
field values that may be `undefined` (`none`).  Two strings compare
lexicographically; otherwise both sides are coerced with `ToNumber` and any
`NaN` (including `undefined`) makes the comparison false. -/
def jsGt : Option JsonVal → Option JsonVal → Bool
  | some (.str s), some (.str t) => decide (t < s)
  | a, b =>
    match a.bind toNumQ, b.bind toNumQ with
    | some x, some y => decide (y < x)
    | _, _ => false

/-- The comparator positive test `aVal > bVal` (with `aVal = a[f]`,
`bVal = b[f]`) of the local sort
`results.sort((a, b) => (aVal > bVal ? 1 : -1))` in `search`. -/
def fieldGt (f : String) (a b : Row) : Bool :=
  jsGt (rowGet a f) (rowGet b f)

/-- In-place update of a field's value (writing to an existing key of a JS
object keeps the key's position). -/
def setField (r : Row) (f : String) (v : JsonVal) : Row :=
  r.map (fun p => if p.1 = f then (f, v) else p)

/-- The `includeDistance` backfill
`{ ...item, similarity: item.similarity ?? 0 }`: the spread copies the row
and the write sets the `similarity` key — an absent key (JS `undefined`) is
appended with value `0`, a present `null` (the other nullish value) is
replaced by `0` in place, and any other present value is overwritten with
itself, leaving the row unchanged. -/
def backfillSimilarity (r : Row) : Row :=
  match rowGet r "similarity" with
  | none => r ++ [("similarity", .num 0)]
  | some .null => setField r "similarity" (.num 0)
  | some _ => r

/-- The line `const threshold = options?.threshold ?? this.defaultThreshold`. -/
def searchThreshold (defaultThreshold : ℚ) (opts : SearchOptions) : ℚ :=
  opts.threshold.getD defaultThreshold

/-- The truthy-guarded `select` projection of `search` as a per-row map
(`if (options?.select) { results = results.map(...) }`): with no `select`, or
with the falsy `select: ""`, each row passes through unchanged. -/
def selectStep (opts : SearchOptions) (r : Row) : Row :=
  match opts.select with
  | some sel => if sel.isEmpty then r else projectRow (selectFields sel) r
  | none => r

/-- The optional `includeDistance` step as a per-row map. -/
def distanceStep (opts : SearchOptions) (r : Row) : Row :=
  if opts.includeDistance then backfillSimilarity r else r

/-- Observable outcome of one `search` call: the parameter object of the RPC
call (`none` when validation failed before the call was made) and the result. -/
structure SearchOutcome where
  params : Option RpcParams
  result : Except SearchErr (List Row)
  deriving DecidableEq, Repr

/-- Method `EmbeddingsClient.search`, step for step: table resolution and the falsy
check first; then the query embedding and the RPC parameter object; the RPC
outcome `rpcRes` is supplied as an oracle.  Inside the `try`: an explicit
`error` field throws `DatabaseError("Search failed: " + message)`; then
`data ?? []`, the truthy-guarded `select` projection, the truthy-guarded
non-`"similarity"` sort and the `includeDistance` backfill.  The `catch`
re-throws a `DatabaseError` unchanged and wraps any other exception as
`DatabaseError("Search operation failed: " + message)`.

The sort `results.sort((a, b) => (aVal > bVal ? 1 : -1))` uses a comparator
that never returns 0 and hence is not a consistent comparison function, so
ECMAScript leaves the resulting order implementation-defined; the runtime's
`Array.prototype.sort` is therefore a further oracle `jsSort`, applied to the
comparator's positive test `fieldGt f` and the row list. -/
def search (embed : String → List ℚ) (rpcRes : RpcOutcome)
    (jsSort : (Row → Row → Bool) → List Row → List Row)
    (defaultTable : String) (defaultThreshold : ℚ) (query : String)
    (opts : SearchOptions) : SearchOutcome :=
  let table := opts.table.getD defaultTable
  if table.isEmpty then
    { params := none, result := .error (.validation tableRequiredMsg) }
  else
    let params : RpcParams :=
      { query_embedding := embed query
        match_threshold := searchThreshold defaultThreshold opts
        match_count := opts.limit.getD 10
        table_name := table
        filters := opts.filters
        metadata_filter := opts.metadata }
    match rpcRes with
    | .exnThrow (.dbError m) =>
      { params := some params, result := .error (.database m) }
    | .exnThrow (.other m) =>
      { params := some params,
        result := .error (.database ("Search operation failed: " ++ m)) }
    | .ret _ (some m) =>
      { params := some params,
        result := .error (.database ("Search failed: " ++ m)) }
    | .ret data none =>
      let results := data.getD []
      let results := results.map (selectStep opts)
      let results :=
        match opts.orderBy with
        | some f =>
          if !f.isEmpty && f != "similarity" then jsSort (fieldGt f) results
          else results
        | none => results
      let results := results.map (distanceStep opts)
      { params := some params, result := .ok results }

/-- Type `EmbeddingsConfig` of `src/types` (nested `embeddings` option shape of the
`SupabaseAI` constructor), restricted to the fields the claims are about. -/
structure EmbeddingsConfig where
  table : Option String := none
  threshold : Option ℚ := none
  deriving DecidableEq, Repr

/-- JS `x || d` on an optional number: the default replaces not only
`undefined`/`null` but every falsy number, in particular `0`. -/
def jsOrNum (v : Option ℚ) (d : ℚ) : ℚ :=
  match v with
  | some q => if q = 0 then d else q
  | none => d

/-- JS `x || d` on an optional string: the default replaces `undefined`,
`null` and the empty string. -/
def jsOrStr (v : Option String) (d : String) : String :=
  match v with
  | some s => if s.isEmpty then d else s
  | none => d

/-- The `SupabaseAI` constructor's configuration resolution
(`src/client.ts`): `threshold: options.embeddings?.threshold || 0.8` — a `||`
default, applied before validation and before the value is handed down to the
`EmbeddingsClient`. -/
def supabaseAIThreshold (embeddings : Option EmbeddingsConfig) : ℚ :=
  jsOrNum (embeddings.bind (fun e => e.threshold)) 0.8

/-- The `SupabaseAI` constructor's table resolution
(`table: options.embeddings?.table || 'documents'`). -/
def supabaseAITable (embeddings : Option EmbeddingsConfig) : String :=
  jsOrStr (embeddings.bind (fun e => e.table)) "documents"

/-- Type `EmbeddingsClientConfig` of `src/types`, restricted to the fields the
claims are about. -/
structure EmbeddingsClientConfig where
  table : Option String := none
  threshold : Option ℚ := none
  deriving DecidableEq, Repr

/-- The `EmbeddingsClient` constructor:
`this.defaultTable = config.table ?? "documents"` — a nullish default. -/
def resolveDefaultTable (c : EmbeddingsClientConfig) : String :=
  c.table.getD "documents"

/-- The `EmbeddingsClient` constructor:
`this.defaultThreshold = config.threshold ?? 0.8` — a nullish default. -/
def resolveDefaultThreshold (c : EmbeddingsClientConfig) : ℚ :=
  c.threshold.getD 0.8

/-- Function `cosineSimilarity` from `src/embeddings/utils.ts`: after the length check,
one loop accumulates `dotProduct`, `normA`, `normB` and the result is
`dotProduct / (Math.sqrt(normA) * Math.sqrt(normB))`.  The number type and its
square root are parameters of the embedding (the code computes with IEEE
doubles; every claim about it is an exact algebraic identity that holds for
any field). -/
def cosineSimilarity (K : Type) [Field K] (sqrt : K → K) (a b : List K) :
    Except String K :=
  if a.length ≠ b.length then .error "Vectors must have the same length"
  else
    let s := (a.zip b).foldl
      (fun (acc : K × K × K) (p : K × K) =>
        (acc.1 + p.1 * p.2, acc.2.1 + p.1 * p.1, acc.2.2 + p.2 * p.2))
      (0, 0, 0)
    .ok (s.1 / (sqrt s.2.1 * sqrt s.2.2))

/-- The dot product `sum of a_i * b_i` (the specification's `dotProduct`). -/
def dotProduct (K : Type) [Field K] (a b : List K) : K :=
  ((a.zip b).map (fun p => p.1 * p.2)).sum

/-- The magnitude `sqrt (sum of a_i ^ 2)` (the specification's `magnitude`). -/
def magnitude (K : Type) [Field K] (sqrt : K → K) (a : List K) : K :=
  sqrt ((a.map (fun x => x * x)).sum)

/-! ## Helper lemmas: chunking and the insert loop -/

theorem chunksAux_nil (b : Nat) : ∀ fuel, chunksAux b fuel ([] : List α) = []
  | 0 => rfl
  | _ + 1 => rfl

theorem chunksAux_congr (b : Nat) (hb : 1 ≤ b) :
    ∀ (n : Nat) (l : List α) (f₁ f₂ : Nat), l.length ≤ n →
      l.length ≤ f₁ → l.length ≤ f₂ → chunksAux b f₁ l = chunksAux b f₂ l := by
  intro n
  induction n with
  | zero =>
    intro l f₁ f₂ hn _ _
    have : l = [] := List.eq_nil_of_length_eq_zero (Nat.le_zero.mp hn)
    subst this
    rw [chunksAux_nil, chunksAux_nil]
  | succ n ih =>
    intro l f₁ f₂ hn h1 h2
    cases l with
    | nil => rw [chunksAux_nil, chunksAux_nil]
    | cons x t =>
      match f₁, f₂ with
      | g₁ + 1, g₂ + 1 =>
        simp only [chunksAux]
        congr 1
        apply ih ((x :: t).drop b) g₁ g₂ <;>
          simp only [List.length_drop, List.length_cons] at * <;> omega

theorem chunks_cons_of_ne (b : Nat) (hb : 1 ≤ b) (l : List α) (hl : l ≠ []) :
    chunks b l = l.take b :: chunks b (l.drop b) := by
  cases l with
  | nil => exact absurd rfl hl
  | cons x t =>
    show chunksAux b (t.length + 1) (x :: t) = _
    simp only [chunksAux]
    congr 1
    apply chunksAux_congr b hb t.length ((x :: t).drop b) <;>
      simp only [List.length_drop, List.length_cons] <;> omega

theorem chunks_flatten_aux (b : Nat) (hb : 1 ≤ b) :
    ∀ (n : Nat) (l : List α), l.length ≤ n → (chunks b l).flatten = l := by
  intro n
  induction n with
  | zero =>
    intro l hn
    have : l = [] := List.eq_nil_of_length_eq_zero (Nat.le_zero.mp hn)
    subst this; rfl
  | succ n ih =>
    intro l hn
    cases l with
    | nil => rfl
    | cons x t =>
      rw [chunks_cons_of_ne b hb _ (List.cons_ne_nil x t), List.flatten_cons,
        ih ((x :: t).drop b)
          (by simp only [List.length_drop, List.length_cons] at *; omega),
        List.take_append_drop]

theorem chunks_flatten (b : Nat) (hb : 1 ≤ b) (l : List α) :
    (chunks b l).flatten = l :=
  chunks_flatten_aux b hb l.length l (Nat.le_refl _)

theorem chunks_mem_aux (b : Nat) (hb : 1 ≤ b) :
    ∀ (n : Nat) (l : List α), l.length ≤ n →
      ∀ c ∈ chunks b l, 0 < c.length ∧ c.length ≤ b := by
  intro n
  induction n with
  | zero =>
    intro l hn c hc
    have : l = [] := List.eq_nil_of_length_eq_zero (Nat.le_zero.mp hn)
    subst this; simp [chunks, chunksAux_nil] at hc
  | succ n ih =>
    intro l hn c hc
    cases l with
    | nil => simp [chunks, chunksAux_nil] at hc
    | cons x t =>
      rw [chunks_cons_of_ne b hb _ (List.cons_ne_nil x t), List.mem_cons] at hc
      rcases hc with hc | hc
      · subst hc
        constructor
        · simp only [List.length_take, List.length_cons]; omega
        · simp only [List.length_take]; omega
      · exact ih ((x :: t).drop b)
          (by simp only [List.length_drop, List.length_cons] at *; omega) c hc

theorem chunks_count_aux (b : Nat) (hb : 1 ≤ b) :
    ∀ (n : Nat) (l : List α), l.length ≤ n →
      (chunks b l).length = (l.length + b - 1) / b := by
  intro n
  induction n with
  | zero =>
    intro l hn
    have : l = [] := List.eq_nil_of_length_eq_zero (Nat.le_zero.mp hn)
    subst this
    simp only [chunks, chunksAux_nil, List.length_nil, Nat.zero_add]
    exact (Nat.div_eq_of_lt (by omega)).symm
  | succ n ih =>
    intro l hn
    cases l with
    | nil =>
      simp only [chunks, chunksAux_nil, List.length_nil, Nat.zero_add]
      exact (Nat.div_eq_of_lt (by omega)).symm
    | cons x t =>
      rw [chunks_cons_of_ne b hb _ (List.cons_ne_nil x t), List.length_cons,
        ih ((x :: t).drop b)
          (by simp only [List.length_drop, List.length_cons] at *; omega)]
      simp only [List.length_drop, List.length_cons]
      rcases Nat.lt_or_ge (t.length + 1) b with hlt | hge
      · have h0 : t.length + 1 - b + b - 1 = b - 1 := by omega
        have h2 : t.length + 1 + b - 1 = t.length + b := by omega
        rw [h0, h2, Nat.add_div_right _ (by omega), Nat.div_eq_of_lt (by omega),
          Nat.div_eq_of_lt (by omega)]
      · have h1 : t.length + 1 - b + b - 1 = t.length := by omega
        have h2 : t.length + 1 + b - 1 = t.length + b := by omega
        rw [h1, h2, Nat.add_div_right _ (by omega)]

theorem chunks_count (b : Nat) (hb : 1 ≤ b) (l : List α) :
    (chunks b l).length = (l.length + b - 1) / b :=
  chunks_count_aux b hb l.length l (Nat.le_refl _)

theorem insertChunks_ok (insRes : Nat → Option String)
    (h : ∀ j, insRes j = none) :
    ∀ (cs : List (List PersistedRecord)) (k : Nat),
      insertChunks insRes cs k = (cs, none) := by
  intro cs
  induction cs with
  | nil => intro k; rfl
  | cons c cs ih =>
    intro k
    simp only [insertChunks, h k, ih (k + 1)]

theorem insertChunks_err (insRes : Nat → Option String) (msg : String) :
    ∀ (cs : List (List PersistedRecord)) (k0 k : Nat),
      (∀ j, j < k0 → insRes (k + j) = none) → insRes (k + k0) = some msg →
      k0 < cs.length →
      insertChunks insRes cs k = (cs.take (k0 + 1), some msg) := by
  intro cs
  induction cs with
  | nil => intro k0 k _ _ hlen; simp at hlen
  | cons c cs ih =>
    intro k0 k hpre herr hlen
    match k0 with
    | 0 =>
      simp only [Nat.add_zero] at herr
      simp only [insertChunks, herr, List.take_succ_cons, List.take_zero]
    | j + 1 =>
      have h0 : insRes k = none := by
        have := hpre 0 (Nat.succ_pos j)
        simpa using this
      have hrec := ih j (k + 1)
        (fun i hi => by
          have h := hpre (i + 1) (Nat.succ_lt_succ hi)
          have e : k + 1 + i = k + (i + 1) := by omega
          rw [e]; exact h)
        (by
          have e : k + 1 + j = k + (j + 1) := by omega
          rw [e]; exact herr)
        (Nat.lt_of_succ_lt_succ hlen)
      simp only [insertChunks, h0, hrec, List.take_succ_cons]

theorem insertLoopFuel_eq (insRes : Nat → Option String)
    (recs : List PersistedRecord) (b : Nat) (hb : 1 ≤ b) :
    ∀ (fuel i k : Nat), recs.length - i < fuel →
      insertLoopFuel insRes recs b fuel i k =
        some (insertChunks insRes (chunks b (recs.drop i)) k) := by
  intro fuel
  induction fuel with
  | zero => intro i k h; omega
  | succ fuel ih =>
    intro i k h
    by_cases hi : i < recs.length
    · have hne : recs.drop i ≠ [] := by
        intro hnil
        have := congrArg List.length hnil
        simp only [List.length_drop, List.length_nil] at this
        omega
      rw [chunks_cons_of_ne b hb _ hne, List.drop_drop]
      simp only [insertLoopFuel, hi, if_true]
      cases hr : insRes k with
      | some msg => simp only [insertChunks, hr]
      | none =>
        rw [ih (i + b) (k + 1) (by omega)]
        simp only [insertChunks, hr, Nat.add_comm b i]
    · simp only [insertLoopFuel, hi, if_false]
      have hdrop : recs.drop i = [] := List.drop_eq_nil_of_le (by omega)
      rw [hdrop]
      simp [chunks, chunksAux_nil, insertChunks]

/-! ## Helper lemmas: the embed-and-assemble loop -/

/-- Number of documents in `data` whose (normalized) id is not truthy, i.e.
the documents for which the id-generation branch is reachable. -/
def pendingIdCount (data : List StoreInput) : Nat :=
  (data.filter (fun it => !strTruthy (normalizeStoreInput it).id)).length

theorem processData_length (embed : String → List ℚ) (genId : Nat → String)
    (gi : Bool) :
    ∀ (data : List StoreInput) (ctr : Nat),
      (processData embed genId gi data ctr).1.length = data.length := by
  intro data
  induction data with
  | nil => intro ctr; rfl
  | cons item rest ih =>
    intro ctr
    simp only [processData, List.length_cons, ih]

theorem assembleRecord_eq (embed : String → List ℚ) (genId : Nat → String)
    (gi : Bool) (item : StoreInput) (ctr : Nat) :
    assembleRecord embed genId gi item ctr =
      (let n := normalizeStoreInput item
       ({ content := n.content
          embedding := embed n.content
          metadata := n.metadata.getD []
          extra := n.extra
          id := if strTruthy n.id then n.id
                else if gi then some (genId ctr) else none },
        if strTruthy n.id then ctr else if gi then ctr + 1 else ctr)) := by
  simp only [assembleRecord]
  by_cases h : strTruthy (normalizeStoreInput item).id
  · simp [h]
  · simp only [h, Bool.false_eq_true, if_false]
    by_cases hg : gi <;> simp [hg]

theorem processData_ctr (embed : String → List ℚ) (genId : Nat → String)
    (gi : Bool) :
    ∀ (data : List StoreInput) (ctr : Nat),
      (processData embed genId gi data ctr).2 =
        ctr + (if gi then pendingIdCount data else 0) := by
  intro data
  induction data with
  | nil => intro ctr; simp [processData, pendingIdCount]
  | cons item rest ih =>
    intro ctr
    simp only [processData, ih, assembleRecord_eq]
    by_cases h : strTruthy (normalizeStoreInput item).id
    · simp [pendingIdCount, h]
    · by_cases hg : gi
      · simp [pendingIdCount, h, hg, List.filter]
        omega
      · simp [pendingIdCount, hg]

theorem processData_get (embed : String → List ℚ) (genId : Nat → String)
    (gi : Bool) :
    ∀ (data : List StoreInput) (ctr : Nat) (i : Nat) (h : i < data.length),
      (processData embed genId gi data ctr).1.get
          ⟨i, by rw [processData_length]; exact h⟩ =
        (let n := normalizeStoreInput (data.get ⟨i, h⟩)
         { content := n.content
           embedding := embed n.content
           metadata := n.metadata.getD []
           extra := n.extra
           id := if strTruthy n.id then n.id
                 else if gi then
                   some (genId (ctr + (if gi then pendingIdCount (data.take i) else 0)))
                 else none }) := by
  intro data
  induction data with
  | nil => intro ctr i h; exact absurd h (Nat.not_lt_zero i)
  | cons item rest ih =>
    intro ctr i h
    match i with
    | 0 =>
      simp only [processData, List.get, assembleRecord_eq, List.take_zero,
        pendingIdCount, List.filter_nil, List.length_nil, Nat.add_zero, ite_self]
    | Nat.succ j =>
      have hj : j < rest.length := Nat.lt_of_succ_lt_succ h
      have hrec := ih ((assembleRecord embed genId gi item ctr).2) j hj
      have hcnt : pendingIdCount (item :: rest.take j) =
          (if strTruthy (normalizeStoreInput item).id then 0 else 1) +
            pendingIdCount (rest.take j) := by
        by_cases ht : strTruthy (normalizeStoreInput item).id <;>
          simp [pendingIdCount, List.filter, ht] <;> omega
      have harg : (assembleRecord embed genId gi item ctr).2 +
          (if gi = true then pendingIdCount (rest.take j) else 0) =
          ctr + (if gi = true then pendingIdCount (item :: rest.take j) else 0) := by
        rw [assembleRecord_eq]
        by_cases ht : strTruthy (normalizeStoreInput item).id <;>
          by_cases hg : gi <;> simp [ht, hg, hcnt] <;> omega
      simp only [processData, List.get] at hrec ⊢
      rw [hrec, List.take_succ_cons, ← harg]

/-- A closed-form run of `store` when the resolved table is non-empty and the
effective batch size is at least 1: the insert calls are exactly the chunk
list handed to `insertChunks` with the backing store's responses. -/
theorem store_run (embed : String → List ℚ) (genId : Nat → String)
    (insRes : Nat → Option String) (defaultTable : String)
    (data : List StoreInput) (opts : StoreOptions) (fuel : Nat)
    (ht : (opts.table.getD defaultTable).isEmpty = false)
    (hb : 1 ≤ opts.batchSize.getD 100) (hf : data.length < fuel) :
    store embed genId insRes defaultTable data opts fuel =
      some { embedCalls := data.map (fun it => (normalizeStoreInput it).content)
             inserts := (insertChunks insRes
               (chunks (opts.batchSize.getD 100)
                 (processData embed genId (opts.generateId == some true) data 0).1) 0).1
             result :=
               match (insertChunks insRes
                   (chunks (opts.batchSize.getD 100)
                     (processData embed genId (opts.generateId == some true) data 0).1) 0).2 with
               | none => .ok ()
               | some msg =>
                 .error (.database ("Failed to store embeddings: " ++ msg)) } := by
  have hlen : (processData embed genId (opts.generateId == some true) data 0).1.length
      = data.length := processData_length _ _ _ _ _
  simp only [store, ht, Bool.false_eq_true, if_false]
  rw [insertLoopFuel_eq insRes _ _ hb fuel 0 0 (by omega), List.drop_zero]
  cases h2 : (insertChunks insRes
      (chunks (opts.batchSize.getD 100)
        (processData embed genId (opts.generateId == some true) data 0).1) 0).2 <;>
    simp [h2]

/-! ## Helper lemmas: the sort comparator -/

theorem jsGt_num (x y : ℚ) :
    jsGt (some (.num x)) (some (.num y)) = decide (y < x) := rfl

/-! ## Helper lemmas: vector math -/

theorem cosineFold (K : Type) [Field K] :
    ∀ (l : List (K × K)) (x y z : K),
      l.foldl
        (fun (acc : K × K × K) (p : K × K) =>
          (acc.1 + p.1 * p.2, acc.2.1 + p.1 * p.1, acc.2.2 + p.2 * p.2))
        (x, y, z) =
      (x + (l.map (fun p => p.1 * p.2)).sum,
       y + (l.map (fun p => p.1 * p.1)).sum,
       z + (l.map (fun p => p.2 * p.2)).sum)
  | [], x, y, z => by simp
  | p :: l, x, y, z => by
    simp only [List.foldl_cons, List.map_cons, List.sum_cons, cosineFold K l]
    simp only [Prod.mk.injEq]
    refine ⟨by ring, by ring, by ring⟩

theorem zip_map_fst_sq (K : Type) [Field K] (a b : List K)
    (h : a.length = b.length) :
    ((a.zip b).map (fun p => p.1 * p.1)).sum = (a.map (fun x => x * x)).sum := by
  have : ((a.zip b).map (fun p => p.1 * p.1)) =
      ((a.zip b).map Prod.fst).map (fun x => x * x) := by
    rw [List.map_map]; rfl
  rw [this, List.map_fst_zip a b (le_of_eq h)]

theorem zip_map_snd_sq (K : Type) [Field K] (a b : List K)
    (h : a.length = b.length) :
    ((a.zip b).map (fun p => p.2 * p.2)).sum = (b.map (fun x => x * x)).sum := by
  have : ((a.zip b).map (fun p => p.2 * p.2)) =
      ((a.zip b).map Prod.snd).map (fun x => x * x) := by
    rw [List.map_map]; rfl
  rw [this, List.map_snd_zip a b (ge_of_eq h)]

/-- C8: for vectors of unequal length `cosineSimilarity` fails with the
length-mismatch error; for vectors of equal length it returns exactly
`dotProduct(a,b) / (magnitude(a) * magnitude(b))`, i.e.
`(Σ aᵢ·bᵢ) / (sqrt (Σ aᵢ²) · sqrt (Σ bᵢ²))`, with no special handling of
all-zero vectors (the quotient is taken unconditionally). -/
theorem claim_C8_cosine_similarity (K : Type) [Field K] (sqrt : K → K)
    (a b : List K) :
    (a.length ≠ b.length →
      cosineSimilarity K sqrt a b = .error "Vectors must have the same length") ∧
    (a.length = b.length →
      cosineSimilarity K sqrt a b =
        .ok (dotProduct K a b / (magnitude K sqrt a * magnitude K sqrt b))) := by
  constructor
  · intro h
    simp [cosineSimilarity, h]
  · intro h
    simp only [cosineSimilarity, h, ne_eq, not_true_eq_false, if_false]
    rw [cosineFold]
    simp only [Rat.zero_add, zero_add]
    rw [zip_map_fst_sq K a b h, zip_map_snd_sq K a b h]
    rfl

/-- Witness for C8 at concrete inputs: equal-length vectors `[1,2]`/`[3,4]`
take the quotient form, and `[1]`/`[]` hit the length-mismatch error. -/
theorem claim_C8_cosine_similarity_witness :
    cosineSimilarity ℚ id [1, 2] [3, 4] =
      .ok (dotProduct ℚ [1, 2] [3, 4] /
        (magnitude ℚ id [1, 2] * magnitude ℚ id [3, 4])) ∧
    cosineSimilarity ℚ id [1] [] = .error "Vectors must have the same length" :=
  ⟨(claim_C8_cosine_similarity ℚ id [1, 2] [3, 4]).2 rfl,
   (claim_C8_cosine_similarity ℚ id [1] []).1 (by decide)⟩

/-! ## Claims -/

/-- C1 (code bug in the source): the `SupabaseAI` constructor resolves the
configured threshold with the falsy-defaulting `||`
(`threshold: options.embeddings?.threshold || 0.8`), so a configured
threshold of `0` is replaced by the `0.8` default before it is handed to the
`EmbeddingsClient` and hence before `search` resolves
`options?.threshold ?? this.defaultThreshold`.  The effective default
threshold used by `search` for a client constructed through `SupabaseAI` with
a configured threshold of `0` is therefore `0.8`, not `0` — contradicting the
claim and the repository's own test
`should NOT use defaults when threshold is 0` (which expects `0`).  Only a
direct `EmbeddingsClient` construction (`config.threshold ?? 0.8`) keeps `0`. -/
theorem claim_C1_threshold_zero_bug :
    supabaseAIThreshold (some { threshold := some 0 }) = 0.8 ∧
    searchThreshold (supabaseAIThreshold (some { threshold := some 0 })) { } = 0.8 ∧
    ((search (fun _ => []) (.ret (some []) none) (fun _ l => l) "documents"
        (supabaseAIThreshold (some { threshold := some 0 })) "q" { }).params.map
      (fun p => p.match_threshold)) = some 0.8 ∧
    (0.8 : ℚ) ≠ 0 ∧
    resolveDefaultThreshold { threshold := some 0 } = 0 ∧
    searchThreshold (resolveDefaultThreshold { threshold := some 0 }) { } = 0 := by
  refine ⟨rfl, rfl, rfl, by norm_num, rfl, rfl⟩

/-- C9 counterexample: a foreign document that supplies the explicit id `""`
(present on the input) is normalized with the id dropped — the source spreads
`...(item.id && { id: item.id })` and `""` is falsy — so "id copied through
only if present" fails for the present-but-empty id. -/
theorem claim_C9_normalize_counterexample :
    normalizeStoreInput
        (.langChain { pageContent := "X", metadata := none, id := some "" }) =
      { content := "X", metadata := none, id := none, extra := [] } ∧
    (some "" : Option String) ≠ none := by decide

/-- C9 (amended): an item with a `pageContent` key normalizes to a
`StoreData` whose `content` is the item's `pageContent` and whose passthrough
fields are empty; `metadata` is copied through exactly when present (an
absent metadata stays absent — no defaulting at normalization time); the `id`
is copied through only when present *and non-empty* (a present-but-empty id
is dropped, because the source spreads it under a truthiness guard); an item
without `pageContent` is returned as-is. -/
theorem claim_C9_normalize (d : LangChainDocument) (d' : StoreData) :
    (normalizeStoreInput (.langChain d)).content = d.pageContent ∧
    (normalizeStoreInput (.langChain d)).metadata = d.metadata ∧
    (normalizeStoreInput (.langChain d)).extra = [] ∧
    (∀ s, d.id = some s → s.isEmpty = false →
      (normalizeStoreInput (.langChain d)).id = some s) ∧
    (d.id = none ∨ d.id = some "" → (normalizeStoreInput (.langChain d)).id = none) ∧
    normalizeStoreInput (.storeData d') = d' := by
  refine ⟨rfl, rfl, rfl, ?_, ?_, rfl⟩
  · intro s hs hne
    simp [normalizeStoreInput, strTruthy, hs, hne]
  · intro h
    rcases h with h | h <;> simp [normalizeStoreInput, strTruthy, h] <;> decide

/-- Witness for C9 at concrete inputs: a foreign document with metadata and a
non-empty id keeps both; one without metadata stays without metadata. -/
theorem claim_C9_normalize_witness :
    (normalizeStoreInput (.langChain
        { pageContent := "X", metadata := some [("a", .num 1)], id := some "doc1" })).id
      = some "doc1" ∧
    (normalizeStoreInput (.langChain { pageContent := "X" })).metadata = none ∧
    (normalizeStoreInput (.langChain
        { pageContent := "X", metadata := some [("a", .num 1)], id := some "doc1" })).metadata
      = some [("a", .num 1)] :=
  ⟨(claim_C9_normalize
      { pageContent := "X", metadata := some [("a", .num 1)], id := some "doc1" }
      { content := "" }).2.2.2.1 "doc1" rfl (by decide),
   (claim_C9_normalize { pageContent := "X" } { content := "" }).2.1,
   (claim_C9_normalize
      { pageContent := "X", metadata := some [("a", .num 1)], id := some "doc1" }
      { content := "" }).2.1⟩

/-- C2 counterexample: a document that supplies the explicit id `""` is
persisted *without* an `id` field (`if (normalizedItem.id)` is a truthiness
check and `""` is falsy), so "the persisted record's id equals the supplied
value" fails for the present-but-empty id. -/
theorem claim_C2_identity_counterexample :
    (store (fun _ => []) (fun n => toString n) (fun _ => none) "documents"
        [.storeData { content := "c", id := some "" }]
        { generateId := some false } 2).map
      (fun o => o.inserts.flatten.map (fun r => r.id)) = some [none] ∧
    (none : Option String) ≠ some "" := by decide

/-- C2 (amended): for every input document, writing `n` for its normalized
form: if `n` supplies a *non-empty* id, the persisted record's id equals that
supplied value and id generation is never invoked for that record regardless
of the `generateId` flag (the generation counter skips it); if the id is
absent — or present but empty, which the truthiness check treats as absent —
then with `generateId` false (the default) the persisted record has no `id`
field at all, and with `generateId` true its id is the next value of the
fresh-id supply (one generation call per id-less record, in input order).
The persisted records are exactly the records sent by `store`'s insert calls. -/
theorem claim_C2_identity (embed : String → List ℚ) (genId : Nat → String)
    (insRes : Nat → Option String) (defaultTable : String)
    (data : List StoreInput) (opts : StoreOptions) (fuel : Nat)
    (ht : (opts.table.getD defaultTable).isEmpty = false)
    (hb : 1 ≤ opts.batchSize.getD 100) (hf : data.length < fuel)
    (hins : ∀ j, insRes j = none) (i : Nat) (h : i < data.length) :
    ∃ o, store embed genId insRes defaultTable data opts fuel = some o ∧
      o.result = .ok () ∧
      o.inserts.flatten =
        (processData embed genId (opts.generateId == some true) data 0).1 ∧
      ((processData embed genId (opts.generateId == some true) data 0).1.get
          ⟨i, by rw [processData_length]; exact h⟩).id =
        (let n := normalizeStoreInput (data.get ⟨i, h⟩)
         if strTruthy n.id then n.id
         else if opts.generateId == some true then
           some (genId (pendingIdCount (data.take i)))
         else none) := by
  refine ⟨_, store_run embed genId insRes defaultTable data opts fuel ht hb hf, ?_, ?_, ?_⟩
  · simp only [insertChunks_ok insRes hins]
  · simp only [insertChunks_ok insRes hins,
      chunks_flatten (opts.batchSize.getD 100) hb]
  · rw [processData_get embed genId (opts.generateId == some true) data 0 i h]
    by_cases hgi : (opts.generateId == some true) = true <;>
      simp [hgi]

/-- Witness for C2 at a concrete input: two documents, the first with the
explicit id `"k"`, the second without an id, stored with `generateId: true`
— the first record keeps `"k"`, and by the theorem the second receives the
first value of the id supply. -/
theorem claim_C2_identity_witness :
    ∃ o, store (fun _ => []) (fun n => toString n) (fun _ => none) "documents"
        [.storeData { content := "a", id := some "k" },
         .storeData { content := "b" }] { generateId := some true } 3 = some o ∧
      o.result = .ok () ∧
      o.inserts.flatten =
        (processData (fun _ => []) (fun n => toString n)
          (({ generateId := some true } : StoreOptions).generateId == some true)
          [.storeData { content := "a", id := some "k" },
           .storeData { content := "b" }] 0).1 ∧
      ((processData (fun _ => []) (fun n => toString n)
          (({ generateId := some true } : StoreOptions).generateId == some true)
          [.storeData { content := "a", id := some "k" },
           .storeData { content := "b" }] 0).1.get
          ⟨0, by rw [processData_length]; decide⟩).id =
        (let n := normalizeStoreInput
          (([.storeData { content := "a", id := some "k" },
             .storeData { content := "b" }] : List StoreInput).get ⟨0, by decide⟩)
         if strTruthy n.id then n.id
         else if ({ generateId := some true } : StoreOptions).generateId == some true then
           some (toString (pendingIdCount
             (([.storeData { content := "a", id := some "k" },
                .storeData { content := "b" }] : List StoreInput).take 0)))
         else none) :=
  claim_C2_identity (fun _ => []) (fun n => toString n) (fun _ => none) "documents"
    [.storeData { content := "a", id := some "k" }, .storeData { content := "b" }]
    { generateId := some true } 3 (by decide) (by decide) (by decide)
    (fun j => rfl) 0 (by decide)

/-- C3 counterexample: with an empty default table (an `EmbeddingsClient`
constructed with `table: ""`) and no per-call table, `store([])` throws the
table `ValidationError` instead of returning without error — table
resolution precedes any handling of the empty input. -/
theorem claim_C3_empty_store_counterexample :
    store (fun _ => []) (fun n => toString n) (fun _ => none)
        (resolveDefaultTable { table := some "" }) [] { } 1 =
      some { embedCalls := [], inserts := [],
             result := .error (.validation tableRequiredMsg) } ∧
    (Except.error (.validation tableRequiredMsg) : Except StoreErr Unit) ≠
      .ok () := by decide

/-- C3 (amended): `store` applied to the empty document sequence performs
zero embedding-provider calls and zero insert calls, for every options value;
it returns without error whenever a table name is resolvable, but when no
table name resolves (empty string after the per-call/default fallback) it
fails with the table `ValidationError` — the table-name check is step 1 of
the algorithm and runs even for empty input; the empty input then makes both
loops no-ops. -/
theorem claim_C3_empty_store (embed : String → List ℚ) (genId : Nat → String)
    (insRes : Nat → Option String) (defaultTable : String)
    (opts : StoreOptions) (fuel : Nat) (hf : 1 ≤ fuel) :
    ((opts.table.getD defaultTable).isEmpty = false →
      store embed genId insRes defaultTable [] opts fuel =
        some { embedCalls := [], inserts := [], result := .ok () }) ∧
    ((opts.table.getD defaultTable).isEmpty = true →
      store embed genId insRes defaultTable [] opts fuel =
        some { embedCalls := [], inserts := [],
               result := .error (.validation tableRequiredMsg) }) := by
  constructor
  · intro ht
    match fuel, hf with
    | f + 1, _ =>
      simp [store, ht, processData, insertLoopFuel]
  · intro ht
    simp [store, ht]

/-- Witness for C3 at concrete inputs: with the default table `"documents"`
the empty store is a successful no-op; with an empty default table it is the
validation error. -/
theorem claim_C3_empty_store_witness :
    store (fun _ => []) (fun n => toString n) (fun _ => none) "documents"
        [] { } 1 =
      some { embedCalls := [], inserts := [], result := .ok () } ∧
    store (fun _ => []) (fun n => toString n) (fun _ => none) "" [] { } 1 =
      some { embedCalls := [], inserts := [],
             result := .error (.validation tableRequiredMsg) } :=
  ⟨(claim_C3_empty_store (fun _ => []) (fun n => toString n) (fun _ => none)
      "documents" { } 1 (by decide)).1 (by decide),
   (claim_C3_empty_store (fun _ => []) (fun n => toString n) (fun _ => none)
      "" { } 1 (by decide)).2 (by decide)⟩

/-- For batch size `0` the loop index `i` never advances (`i += 0`), so as
long as inserts keep succeeding the insert loop runs forever: no fuel
suffices. -/
theorem insertLoopFuel_zero_batch (insRes : Nat → Option String)
    (recs : List PersistedRecord) (hins : ∀ j, insRes j = none) :
    ∀ (fuel i k : Nat), i < recs.length →
      insertLoopFuel insRes recs 0 fuel i k = none := by
  intro fuel
  induction fuel with
  | zero => intro i k _; rfl
  | succ fuel ih =>
    intro i k hi
    simp only [insertLoopFuel, hi, if_true, hins k, Nat.add_zero,
      ih i (k + 1) hi]

/-- C10: `store` terminates for every call whose effective batch size is at
least 1 — every explicitly positive `batchSize` and the omitted case
(default 100) — in the sense that some finite iteration bound for the insert
loop completes the call; but for a non-empty document list with
`batchSize: 0` (and a succeeding backing store) the insert loop's index never
advances past the record count, so no finite bound completes the call:
`store` does not terminate. -/
theorem claim_C10_termination :
    (∀ (embed : String → List ℚ) (genId : Nat → String)
        (insRes : Nat → Option String) (defaultTable : String)
        (data : List StoreInput) (opts : StoreOptions),
      1 ≤ opts.batchSize.getD 100 →
      ∃ fuel, (store embed genId insRes defaultTable data opts fuel).isSome) ∧
    (∀ fuel : Nat,
      store (fun _ => []) (fun n => toString n) (fun _ => none) "documents"
        [.storeData { content := "doc" }] { batchSize := some 0 } fuel = none) := by
  constructor
  · intro embed genId insRes defaultTable data opts hb
    refine ⟨data.length + 1, ?_⟩
    by_cases ht : (opts.table.getD defaultTable).isEmpty
    · simp [store, ht]
    · rw [store_run embed genId insRes defaultTable data opts (data.length + 1)
        (by simpa using ht) hb (by omega)]
      rfl
  · intro fuel
    simp only [store, Option.getD_some, Option.getD_none]
    rw [if_neg (by decide),
      insertLoopFuel_zero_batch (fun _ => none) _ (fun j => rfl) fuel 0 0
        (by rw [processData_length]; decide)]

/-- Witness for C10: the terminating half applied at a concrete call — one
document with the default batch size — yields a completed run. -/
theorem claim_C10_termination_witness :
    ∃ fuel, (store (fun _ => []) (fun n => toString n) (fun _ => none)
      "documents" [.storeData { content := "doc" }] { } fuel).isSome :=
  claim_C10_termination.1 (fun _ => []) (fun n => toString n) (fun _ => none)
    "documents" [.storeData { content := "doc" }] { } (by decide)

set_option maxRecDepth 10000

/-- C4: for every input and every effective batch size `b ≥ 1` (explicit
positive `batchSize` or the omitted default 100), with all inserts
succeeding, `store` sends exactly the consecutive chunks of the assembled
record sequence: concatenating the insert calls' row lists in call order
gives back the record sequence (original input order, one record per input
document), every call carries at least 1 and at most `b` rows, and the number
of insert calls is `⌈n / b⌉`; in particular 250 documents with
`batchSize: 100` produce exactly 3 insert calls with row counts
100, 100, 50. -/
theorem claim_C4_chunked_inserts :
    (∀ (embed : String → List ℚ) (genId : Nat → String)
        (insRes : Nat → Option String) (defaultTable : String)
        (data : List StoreInput) (opts : StoreOptions) (fuel : Nat),
      (opts.table.getD defaultTable).isEmpty = false →
      1 ≤ opts.batchSize.getD 100 → data.length < fuel →
      (∀ j, insRes j = none) →
      ∃ o, store embed genId insRes defaultTable data opts fuel = some o ∧
        o.result = .ok () ∧
        o.inserts = chunks (opts.batchSize.getD 100)
          (processData embed genId (opts.generateId == some true) data 0).1 ∧
        o.inserts.flatten =
          (processData embed genId (opts.generateId == some true) data 0).1 ∧
        (∀ c ∈ o.inserts, 0 < c.length ∧ c.length ≤ opts.batchSize.getD 100) ∧
        o.inserts.length =
          (data.length + opts.batchSize.getD 100 - 1) / opts.batchSize.getD 100 ∧
        (processData embed genId (opts.generateId == some true) data 0).1.length =
          data.length) ∧
    (store (fun _ => []) (fun n => toString n) (fun _ => none) "documents"
        (List.replicate 250 (.storeData { content := "d" }))
        { batchSize := some 100 } 251).map
      (fun o => o.inserts.map (fun c => c.length)) = some [100, 100, 50] := by
  constructor
  · intro embed genId insRes defaultTable data opts fuel ht hb hf hins
    have hlen : (processData embed genId (opts.generateId == some true) data 0).1.length
        = data.length := processData_length _ _ _ _ _
    refine ⟨_, store_run embed genId insRes defaultTable data opts fuel ht hb hf,
      ?_, ?_, ?_, ?_, ?_, hlen⟩
    · simp only [insertChunks_ok insRes hins]
    · simp only [insertChunks_ok insRes hins]
    · simp only [insertChunks_ok insRes hins,
        chunks_flatten (opts.batchSize.getD 100) hb]
    · simp only [insertChunks_ok insRes hins]
      exact fun c hc => chunks_mem_aux (opts.batchSize.getD 100) hb _ _
        (Nat.le_refl _) c hc
    · simp only [insertChunks_ok insRes hins,
        chunks_count (opts.batchSize.getD 100) hb, hlen]
  · decide

/-- Witness for C4 at a concrete input: three documents with `batchSize: 2`
give two insert calls of sizes 2 and 1 whose concatenation is the record
sequence. -/
theorem claim_C4_chunked_inserts_witness :
    ∃ o, store (fun _ => []) (fun n => toString n) (fun _ => none) "documents"
        [.storeData { content := "a" }, .storeData { content := "b" },
         .storeData { content := "c" }] { batchSize := some 2 } 4 = some o ∧
      o.result = .ok () ∧
      o.inserts = chunks (({ batchSize := some 2 } : StoreOptions).batchSize.getD 100)
        (processData (fun _ => []) (fun n => toString n)
          (({ batchSize := some 2 } : StoreOptions).generateId == some true)
          [.storeData { content := "a" }, .storeData { content := "b" },
           .storeData { content := "c" }] 0).1 ∧
      o.inserts.flatten =
        (processData (fun _ => []) (fun n => toString n)
          (({ batchSize := some 2 } : StoreOptions).generateId == some true)
          [.storeData { content := "a" }, .storeData { content := "b" },
           .storeData { content := "c" }] 0).1 ∧
      (∀ c ∈ o.inserts, 0 < c.length ∧
        c.length ≤ ({ batchSize := some 2 } : StoreOptions).batchSize.getD 100) ∧
      o.inserts.length =
        (([.storeData { content := "a" }, .storeData { content := "b" },
           .storeData { content := "c" }] : List StoreInput).length +
          ({ batchSize := some 2 } : StoreOptions).batchSize.getD 100 - 1) /
          ({ batchSize := some 2 } : StoreOptions).batchSize.getD 100 ∧
      (processData (fun _ => []) (fun n => toString n)
        (({ batchSize := some 2 } : StoreOptions).generateId == some true)
        [.storeData { content := "a" }, .storeData { content := "b" },
         .storeData { content := "c" }] 0).1.length =
        ([.storeData { content := "a" }, .storeData { content := "b" },
          .storeData { content := "c" }] : List StoreInput).length :=
  claim_C4_chunked_inserts.1 (fun _ => []) (fun n => toString n) (fun _ => none)
    "documents"
    [.storeData { content := "a" }, .storeData { content := "b" },
     .storeData { content := "c" }] { batchSize := some 2 } 4
    (by decide) (by decide) (by decide) (fun j => rfl)

/-- C5: if the `k`-th insert call (0-based) reports an error, `store` fails
immediately with `DatabaseError("Failed to store embeddings: " + message)`:
the insert calls issued are exactly the first `k + 1` chunks — chunks before
the failing one were already sent (and nothing is ever deleted or compensated;
the model has no rollback operation at all), the failing chunk was the last
call issued, and the chunks after it are never sent — while every document
had already been embedded (the embedding loop completes before the first
insert). -/
theorem claim_C5_insert_failure (embed : String → List ℚ) (genId : Nat → String)
    (insRes : Nat → Option String) (defaultTable : String)
    (data : List StoreInput) (opts : StoreOptions) (fuel k0 : Nat) (msg : String)
    (ht : (opts.table.getD defaultTable).isEmpty = false)
    (hb : 1 ≤ opts.batchSize.getD 100) (hf : data.length < fuel)
    (hpre : ∀ j, j < k0 → insRes j = none) (herr : insRes k0 = some msg)
    (hk : k0 < (chunks (opts.batchSize.getD 100)
      (processData embed genId (opts.generateId == some true) data 0).1).length) :
    ∃ o, store embed genId insRes defaultTable data opts fuel = some o ∧
      o.result = .error (.database ("Failed to store embeddings: " ++ msg)) ∧
      o.inserts = (chunks (opts.batchSize.getD 100)
        (processData embed genId (opts.generateId == some true) data 0).1).take (k0 + 1) ∧
      o.inserts.length = k0 + 1 ∧
      o.embedCalls = data.map (fun it => (normalizeStoreInput it).content) := by
  have hchunks := insertChunks_err insRes msg
    (chunks (opts.batchSize.getD 100)
      (processData embed genId (opts.generateId == some true) data 0).1) k0 0
    (fun j hj => by simpa using hpre j hj) (by simpa using herr) hk
  refine ⟨_, store_run embed genId insRes defaultTable data opts fuel ht hb hf,
    ?_, ?_, ?_, rfl⟩
  · simp only [hchunks]
  · simp only [hchunks]
  · simp only [hchunks, List.length_take]
    omega

/-- Witness for C5 at a concrete input: three documents with `batchSize: 1`
and the backing store failing the second insert call — two calls are issued,
the result is the wrapped `DatabaseError`, and all three documents were
embedded. -/
theorem claim_C5_insert_failure_witness :
    ∃ o, store (fun _ => []) (fun n => toString n)
        (fun k => if k = 1 then some "boom" else none) "documents"
        [.storeData { content := "a" }, .storeData { content := "b" },
         .storeData { content := "c" }] { batchSize := some 1 } 4 = some o ∧
      o.result = .error (.database ("Failed to store embeddings: " ++ "boom")) ∧
      o.inserts = (chunks (({ batchSize := some 1 } : StoreOptions).batchSize.getD 100)
        (processData (fun _ => []) (fun n => toString n)
          (({ batchSize := some 1 } : StoreOptions).generateId == some true)
          [.storeData { content := "a" }, .storeData { content := "b" },
           .storeData { content := "c" }] 0).1).take (1 + 1) ∧
      o.inserts.length = 1 + 1 ∧
      o.embedCalls =
        ([.storeData { content := "a" }, .storeData { content := "b" },
          .storeData { content := "c" }] : List StoreInput).map
          (fun it => (normalizeStoreInput it).content) :=
  claim_C5_insert_failure (fun _ => []) (fun n => toString n)
    (fun k => if k = 1 then some "boom" else none) "documents"
    [.storeData { content := "a" }, .storeData { content := "b" },
     .storeData { content := "c" }] { batchSize := some 1 } 4 1 "boom"
    (by decide) (by decide) (by decide)
    (fun j hj => by
      show (if j = 1 then some "boom" else none) = none
      rw [if_neg (by omega)]) (by decide) (by decide)

/-- C7: failure kinds are distinguishable by message: every `DatabaseError`
raised by `store` has the `Failed to store embeddings:` message built from the
reported insert error; in `search` a remote call returning an explicit error
field raises `DatabaseError` with the `Search failed:` message, an exception
thrown during the call raises `DatabaseError` with the
`Search operation failed:` message, and an exception that already is a
`DatabaseError` is re-thrown with its message unchanged, never re-wrapped. -/
theorem claim_C7_error_prefixes :
    (∀ (embed : String → List ℚ) (genId : Nat → String)
        (insRes : Nat → Option String) (defaultTable : String)
        (data : List StoreInput) (opts : StoreOptions) (fuel : Nat)
        (o : StoreOutcome) (m : String),
      store embed genId insRes defaultTable data opts fuel = some o →
      o.result = .error (.database m) →
      ∃ msg, m = "Failed to store embeddings: " ++ msg) ∧
    (∀ (embed : String → List ℚ)
        (jsSort : (Row → Row → Bool) → List Row → List Row)
        (defaultTable : String) (defaultThreshold : ℚ)
        (query : String) (opts : SearchOptions) (d : Option (List Row)) (m : String),
      (opts.table.getD defaultTable).isEmpty = false →
      (search embed (.ret d (some m)) jsSort defaultTable defaultThreshold
          query opts).result =
        .error (.database ("Search failed: " ++ m))) ∧
    (∀ (embed : String → List ℚ)
        (jsSort : (Row → Row → Bool) → List Row → List Row)
        (defaultTable : String) (defaultThreshold : ℚ)
        (query : String) (opts : SearchOptions) (m : String),
      (opts.table.getD defaultTable).isEmpty = false →
      (search embed (.exnThrow (.other m)) jsSort defaultTable defaultThreshold
          query opts).result =
        .error (.database ("Search operation failed: " ++ m))) ∧
    (∀ (embed : String → List ℚ)
        (jsSort : (Row → Row → Bool) → List Row → List Row)
        (defaultTable : String) (defaultThreshold : ℚ)
        (query : String) (opts : SearchOptions) (m : String),
      (opts.table.getD defaultTable).isEmpty = false →
      (search embed (.exnThrow (.dbError m)) jsSort defaultTable
          defaultThreshold query opts).result =
        .error (.database m)) := by
  refine ⟨?_, ?_, ?_, ?_⟩
  · intro embed genId insRes defaultTable data opts fuel o m hstore hres
    by_cases ht : (opts.table.getD defaultTable).isEmpty
    · simp only [store, ht, if_true, Option.some.injEq] at hstore
      rw [← hstore] at hres
      simp at hres
    · simp only [store, ht, Bool.false_eq_true, if_false] at hstore
      cases hloop : insertLoopFuel insRes
          (processData embed genId (opts.generateId == some true) data 0).1
          (opts.batchSize.getD 100) fuel 0 0 with
      | none => rw [hloop] at hstore; simp at hstore
      | some p =>
        obtain ⟨sent, e⟩ := p
        rw [hloop] at hstore
        cases e with
        | none =>
          simp only [Option.some.injEq] at hstore
          rw [← hstore] at hres
          simp at hres
        | some msg =>
          simp only [Option.some.injEq] at hstore
          rw [← hstore] at hres
          simp only [Except.error.injEq, StoreErr.database.injEq] at hres
          exact ⟨msg, hres.symm⟩
  · intro embed jsSort defaultTable defaultThreshold query opts d m ht
    simp [search, ht]
  · intro embed jsSort defaultTable defaultThreshold query opts m ht
    simp [search, ht]
  · intro embed jsSort defaultTable defaultThreshold query opts m ht
    simp [search, ht]

/-- Witness for C7 at concrete inputs: each of the four failure shapes
exercised once. -/
theorem claim_C7_error_prefixes_witness :
    (∃ msg, "Failed to store embeddings: boom" =
      "Failed to store embeddings: " ++ msg) ∧
    (search (fun _ => []) (.ret (some []) (some "down")) (fun _ l => l)
      "documents" (8/10) "q" { }).result =
        .error (.database ("Search failed: " ++ "down")) ∧
    (search (fun _ => []) (.exnThrow (.other "net")) (fun _ l => l)
      "documents" (8/10) "q" { }).result =
        .error (.database ("Search operation failed: " ++ "net")) ∧
    (search (fun _ => []) (.exnThrow (.dbError "Search failed: inner")) (fun _ l => l)
      "documents" (8/10) "q" { }).result =
        .error (.database "Search failed: inner") :=
  ⟨claim_C7_error_prefixes.1 (fun _ => []) (fun n => toString n)
      (fun _ => some "boom") "documents" [.storeData { content := "a" }] { } 2
      { embedCalls := ["a"]
        inserts := [[{ content := "a", embedding := [], metadata := [], extra := [], id := none }]]
        result := .error (.database "Failed to store embeddings: boom") }
      "Failed to store embeddings: boom" (by decide) (by decide),
   claim_C7_error_prefixes.2.1 (fun _ => []) (fun _ l => l) "documents"
     (8/10) "q" { } (some []) "down" (by decide),
   claim_C7_error_prefixes.2.2.1 (fun _ => []) (fun _ l => l) "documents"
     (8/10) "q" { } "net" (by decide),
   claim_C7_error_prefixes.2.2.2 (fun _ => []) (fun _ l => l) "documents"
     (8/10) "q" { } "Search failed: inner" (by decide)⟩

/-- C6 counterexample: `orderBy: ""` is given and is not `'similarity'`, yet
the falsy guard `options?.orderBy && ...` skips the local sort — the runtime
sort oracle (here one that would reverse the rows) is never consulted — so
the returned sequence is the remote order, which is not ascending in the `""`
field and hence not an ascending (let alone stable) sort of the rows by that
field. -/
theorem claim_C6_order_by_counterexample :
    (search (fun _ => []) (.ret (some [[("", .num 2)], [("", .num 1)]]) none)
        (fun _ l => l.reverse) "documents" (8/10) "q"
        { orderBy := some "" }).result =
      .ok [[("", .num 2)], [("", .num 1)]] ∧
    ¬ ([[("", JsonVal.num 2)], [("", JsonVal.num 1)]] : List Row).Pairwise
        (fun a b => ∀ qa qb : ℚ, rowGet a "" = some (.num qa) →
          rowGet b "" = some (.num qb) → qa ≤ qb) := by
  constructor
  · decide
  · intro h
    have h21 := (List.pairwise_cons.mp h).1 [("", JsonVal.num 1)]
      (List.mem_singleton.mpr rfl) 2 1 rfl rfl
    norm_num at h21

/-- C6 (amended): if `orderBy` is given, non-empty, and not `'similarity'`,
`search` hands the (possibly projected) remote rows to the runtime's
`Array.prototype.sort` with the comparator `(a, b) => (aVal > bVal ? 1 : -1)`
and returns the runtime's output, post-processed per row.  That comparator
never returns 0, so it is not a consistent comparison function and the
ECMAScript specification leaves the resulting order — in particular the
relative order of rows with equal field values — implementation-defined: no
stability property is asserted.  What the program does guarantee: the
returned sequence is exactly the runtime sort's output mapped per row;
whenever the runtime's output is a permutation of its input (the guarantee
every conforming runtime provides), the returned sequence is a permutation of
the post-processed projected rows; and whenever the runtime's output is
ordered by the comparator (true of practical runtimes, with ties in
unspecified order), the returned sequence is ascending in the field's numeric
values.  If `orderBy` is `'similarity'`, unset — or the falsy empty string,
which the truthy guard treats as unset — the returned sequence preserves the
remote call's row order exactly, for every runtime sort oracle (no local
re-sort). -/
theorem claim_C6_order_by :
    (∀ (embed : String → List ℚ)
        (jsSort : (Row → Row → Bool) → List Row → List Row)
        (defaultTable : String) (defaultThreshold : ℚ) (query : String)
        (opts : SearchOptions) (rows : List Row) (f : String),
      (opts.table.getD defaultTable).isEmpty = false →
      opts.orderBy = some f → f.isEmpty = false → f ≠ "similarity" →
      (search embed (.ret (some rows) none) jsSort defaultTable
          defaultThreshold query opts).result =
        .ok ((jsSort (fieldGt f) (rows.map (selectStep opts))).map
          (distanceStep opts)) ∧
      (List.Perm (jsSort (fieldGt f) (rows.map (selectStep opts)))
          (rows.map (selectStep opts)) →
        List.Perm
          ((jsSort (fieldGt f) (rows.map (selectStep opts))).map
            (distanceStep opts))
          ((rows.map (selectStep opts)).map (distanceStep opts))) ∧
      ((jsSort (fieldGt f) (rows.map (selectStep opts))).Pairwise
          (fun a b => fieldGt f a b = false) →
        (jsSort (fieldGt f) (rows.map (selectStep opts))).Pairwise
          (fun a b => ∀ qa qb : ℚ, rowGet a f = some (.num qa) →
            rowGet b f = some (.num qb) → qa ≤ qb))) ∧
    (∀ (embed : String → List ℚ)
        (jsSort : (Row → Row → Bool) → List Row → List Row)
        (defaultTable : String) (defaultThreshold : ℚ) (query : String)
        (opts : SearchOptions) (rows : List Row),
      (opts.table.getD defaultTable).isEmpty = false →
      (opts.orderBy = none ∨ opts.orderBy = some "similarity" ∨
        opts.orderBy = some "") →
      (search embed (.ret (some rows) none) jsSort defaultTable
          defaultThreshold query opts).result =
        .ok ((rows.map (selectStep opts)).map (distanceStep opts))) := by
  constructor
  · intro embed jsSort defaultTable defaultThreshold query opts rows f ht
      horder hfne hfsim
    have hbeq : (f == "similarity") = false := beq_eq_false_iff_ne.mpr hfsim
    refine ⟨?_, ?_, ?_⟩
    · simp [search, ht, horder, hfne, hbeq, bne]
    · intro hperm
      exact hperm.map (distanceStep opts)
    · intro hpair
      refine hpair.imp ?_
      intro a b hgt qa qb hqa hqb
      have heq : fieldGt f a b = decide (qb < qa) := by
        simp [fieldGt, hqa, hqb, jsGt_num]
      rw [heq] at hgt
      exact le_of_not_lt (of_decide_eq_false hgt)
  · intro embed jsSort defaultTable defaultThreshold query opts rows ht horder
    rcases horder with h | h | h <;>
      simp [search, ht, h, show String.isEmpty "" = true from rfl]

/-- Witness for C6 at concrete inputs: `orderBy: "created_at"` on two rows
delivered in descending order under a runtime sort oracle that reverses its
input (a comparator-ordered output for these rows), and an `orderBy`-free
call whose order is preserved even under that reversing oracle. -/
theorem claim_C6_order_by_witness :
    (search (fun _ => []) (.ret (some
        [[("created_at", .num 2)], [("created_at", .num 1)]]) none)
        (fun _ l => l.reverse) "documents" (8/10) "q"
        { orderBy := some "created_at" }).result =
      .ok [[("created_at", .num 1)], [("created_at", .num 2)]] ∧
    ([[("created_at", JsonVal.num 1)], [("created_at", JsonVal.num 2)]] :
        List Row).Pairwise
      (fun a b => ∀ qa qb : ℚ, rowGet a "created_at" = some (.num qa) →
        rowGet b "created_at" = some (.num qb) → qa ≤ qb) ∧
    (search (fun _ => []) (.ret (some
        [[("id", .str "a")], [("id", .str "b")]]) none)
        (fun _ l => l.reverse) "documents" (8/10) "q" { }).result =
      .ok [[("id", .str "a")], [("id", .str "b")]] :=
  ⟨(claim_C6_order_by.1 (fun _ => []) (fun _ l => l.reverse) "documents"
      (8/10) "q" { orderBy := some "created_at" }
      [[("created_at", .num 2)], [("created_at", .num 1)]] "created_at"
      (by decide) rfl (by decide) (by decide)).1,
   (claim_C6_order_by.1 (fun _ => []) (fun _ l => l.reverse) "documents"
      (8/10) "q" { orderBy := some "created_at" }
      [[("created_at", .num 2)], [("created_at", .num 1)]] "created_at"
      (by decide) rfl (by decide) (by decide)).2.2 (by decide),
   claim_C6_order_by.2 (fun _ => []) (fun _ l => l.reverse) "documents"
     (8/10) "q" { } [[("id", .str "a")], [("id", .str "b")]]
     (by decide) (Or.inl rfl)⟩
